import Mathlib

/-!
Shallow embedding of `process.py` from the SubCellPortable repository, together
with theorems settling the frozen claims C1–C10 about it.

Modelling conventions:
* Python floats (probabilities, embedding values) are modelled as rationals `ℚ`.
* Python strings are Lean `String`s; where the source uses Python's
  `str.strip`, `str.startswith`, `str.split` and `str.join`, we define
  functions with Python's semantics over the character list of the string.
* Fallible Python code (indexing that may raise `IndexError`, `max` of an
  empty sequence, the per-row work that may raise inside the `try` block)
  is modelled with `Option` / `Except String`.
* The external collaborators (`inference.run_model`, `skimage.io.imread`,
  the network, the file system) are parameters of the definitions: an
  oracle giving the per-row inference outcome, an abstract `imread`
  function, HTTP responses and a path-indexed file-system map.
-/

namespace SubCell

/-! ### Python string builtins, with Python semantics -/

/-- Python whitespace test used by `str.strip()` (default char set). -/
def pyIsSpace (c : Char) : Bool :=
  c = ' ' ∨ c = '\t' ∨ c = '\n' ∨ c = '\r' ∨ c = '\x0b' ∨ c = '\x0c'

/-- Python `s.strip()`: drop leading and trailing whitespace. -/
def pyStrip (s : String) : String :=
  String.mk (((s.toList.dropWhile pyIsSpace).reverse.dropWhile pyIsSpace).reverse)

/-- Python `s.startswith(pre)` for a single-character prefix. -/
def pyStartsWith (s : String) (c : Char) : Bool :=
  match s.toList with
  | [] => false
  | a :: _ => a = c

/-- Helper for `pySplit`: accumulates the current field (reversed). -/
def pySplitAux : List Char → List Char → List String
  | [], acc => [String.mk acc.reverse]
  | c :: rest, acc =>
    if c = ',' then String.mk acc.reverse :: pySplitAux rest []
    else pySplitAux rest (c :: acc)

/-- Python `s.split(",")`: split on every comma, keeping empty fields. -/
def pySplit (s : String) : List String := pySplitAux s.toList []

/-- Python `sep.join(parts)`. -/
def pyJoin (sep : String) : List String → String
  | [] => ""
  | [a] => a
  | a :: rest => a ++ sep ++ pyJoin sep rest

/-- Python `c in s` membership test of a single character in a string
(the source only ever tests one-character needles such as `"r" in "rybg"`). -/
def pyInStr (c : Char) (s : String) : Bool := s.toList.contains c

/-! ### Top-1 and top-3 class computation (`process.py` lines 121–127) -/

/-- Python `max(l)` on a list of floats: `none` on the empty list
(where Python raises `ValueError`), otherwise the maximum. -/
def pyMax : List ℚ → Option ℚ
  | [] => none
  | a :: rest => some (rest.foldl max a)

/-- `max_location_class = curr_probs_l.index(max(curr_probs_l))`
(line 122): index of the first occurrence of the maximum. -/
def max_location_class (l : List ℚ) : Option ℕ :=
  (pyMax l).map fun m => l.indexOf m

/-- The comparison used to sort indices of `l` ascending by probability,
as in `sorted(range(len(l)), key=lambda sub: l[sub])`. -/
def probLE (l : List ℚ) (i j : ℕ) : Prop := l.getD i 0 ≤ l.getD j 0

instance (l : List ℚ) : DecidableRel (probLE l) := fun i j =>
  inferInstanceAs (Decidable (l.getD i 0 ≤ l.getD j 0))

/-- `max_3_location_classes = sorted(range(len(l)), key=lambda sub: l[sub])[-3:]`
(line 124): a stable ascending sort of all indices by probability, keeping
the last three.  `insertionSort` is a stable sort, hence matches Python's
stable `sorted`; Python's `[-3:]` is `drop (length - 3)`. -/
def max_3_location_classes (l : List ℚ) : List ℕ :=
  (List.insertionSort (probLE l) (List.range l.length)).drop (l.length - 3)

/-- `max_3_location_names` (lines 125–127): names of the sorted index triple
read richest first, joined by commas; `none` when an index `[2]`, `[1]`, `[0]`
would raise `IndexError`.  `c2n` models `inference.CLASS2NAME`. -/
def max_3_location_names (c2n : ℕ → String) (l : List ℚ) : Option String :=
  let c := max_3_location_classes l
  match c.get? 2, c.get? 1, c.get? 0 with
  | some a, some b, some d => some (c2n a ++ "," ++ c2n b ++ "," ++ c2n d)
  | _, _, _ => none

/-! ### Result table schema (lines 86–96) -/

/-- A cell of the pandas result table: the source stores strings (identifier
and name columns), an integer class index, and float probability/embedding
values in one row. -/
inductive Cell where
  | str : String → Cell
  | nat : ℕ → Cell
  | rat : ℚ → Cell
deriving DecidableEq

/-- Python `"%02d" % i` (resp. `"%04d" % i`): the decimal digits of `i`,
left-padded with zeros to width `w`. -/
def pyZeroPad (w : ℕ) (i : ℕ) : String :=
  let s := toString i
  String.mk (List.replicate (w - s.length) '0') ++ s

/-- Lines 88–91: `prob00` … `prob30`. -/
def prob_columns : List String := (List.range 31).map fun i => "prob" ++ pyZeroPad 2 i

/-- Lines 92–94: `feat0000` … `feat1535`. -/
def feat_columns : List String := (List.range 1536).map fun i => "feat" ++ pyZeroPad 4 i

/-- Lines 87–95: the full column list of the result table. -/
def final_columns : List String :=
  ["id", "top_class_name", "top_class", "top_3_classes_names", "top_3_classes"]
    ++ prob_columns ++ feat_columns

/-- Lines 131–138: the row appended for one processed image, given the
already-computed components. -/
def new_row (ident top_name : String) (top : ℕ) (top3_names : String)
    (top3 : List ℕ) (probs emb : List ℚ) : List Cell :=
  [Cell.str ident, Cell.str top_name, Cell.nat top, Cell.str top3_names,
    Cell.str (pyJoin "," (top3.map toString))]
    ++ probs.map Cell.rat ++ emb.map Cell.rat

/-! ### Logging -/

inductive LogLevel where
  | info
  | warning
  | error
deriving DecidableEq

structure LogLine where
  level : LogLevel
  msg : String
deriving DecidableEq

/-! ### The per-row loop and the top-level try/except (lines 99–146) -/

/-- Lines 101–141, one manifest line.  `c2n` models `inference.CLASS2NAME`;
`runOutcome` is the oracle for lines 106–119 (directory creation, the
configured `imread`s and `inference.run_model`), yielding
`(embedding, probabilities)` or the message of a raised exception.
Returns the appended row (if any), and the log lines produced, or the
message of the exception that aborts the run.  Blank and `#`-comment lines
are skipped (line 103); fewer than six comma-separated fields raise
Python's `IndexError` (`curr_set_arr[5]` at line 119/132). -/
def processLine (c2n : ℕ → String) (create_csv : Bool)
    (runOutcome : String → Except String (List ℚ × List ℚ)) (line : String) :
    Except String (Option (List Cell) × List LogLine) :=
  if pyStrip line ≠ "" ∧ pyStartsWith line '#' = false then
    let arr := pySplit line
    if 6 ≤ arr.length then
      match runOutcome line with
      | .error e => .error e
      | .ok (embedding, probabilities) =>
        match max_location_class probabilities with
        | none => .error "max() arg is an empty sequence"
        | some mlc =>
          match max_3_location_names c2n probabilities with
          | none => .error "list index out of range"
          | some m3n =>
            let ident := pyStrip (arr.getD 5 "")
            let row := if create_csv then
                some (new_row ident (c2n mlc) mlc m3n
                  (max_3_location_classes probabilities) probabilities embedding)
              else none
            .ok (row,
              [⟨LogLevel.info, "- Saved results for " ++ ident
                ++ ", locations predicted [" ++ m3n ++ "]"⟩])
    else .error "list index out of range"
  else .ok (none, [])

/-- The `for curr_set in path_list` loop (lines 101–141): processes lines in
order, accumulating appended rows and log lines, stopping at the first
raised exception (whose message is returned). -/
def runLines (c2n : ℕ → String) (create_csv : Bool)
    (runOutcome : String → Except String (List ℚ × List ℚ)) :
    List String → List (List Cell) → List LogLine →
    List (List Cell) × List LogLine × Option String
  | [], df, logs => (df, logs, none)
  | line :: rest, df, logs =>
    match processLine c2n create_csv runOutcome line with
    | .error e => (df, logs, some e)
    | .ok (none, lg) => runLines c2n create_csv runOutcome rest df (logs ++ lg)
    | .ok (some row, lg) =>
      runLines c2n create_csv runOutcome rest (df ++ [row]) (logs ++ lg)

/-- Outcome of the batch fragment: the in-memory table, the log lines
produced, and the contents of `result.csv` if it was written. -/
structure RunResult where
  dfRows : List (List Cell)
  logs : List LogLine
  resultCsv : Option (List (List Cell))
deriving DecidableEq

/-- Lines 96–146 (after the model has been loaded): if `./path_list.csv`
exists, run the loop; an exception is caught by the top-level handler
(line 145) and logged as `"- " + str(e)` at error level, skipping the final
`df.to_csv` (lines 143–144), which only runs when the whole loop finished
and `create_csv` is set. -/
def mainRun (c2n : ℕ → String) (create_csv : Bool)
    (runOutcome : String → Except String (List ℚ × List ℚ))
    (manifestExists : Bool) (lines : List String) : RunResult :=
  if manifestExists then
    match runLines c2n create_csv runOutcome lines [] [] with
    | (df, logs, none) =>
      if create_csv then ⟨df, logs, some df⟩ else ⟨df, logs, none⟩
    | (df, logs, some e) =>
      ⟨df, logs ++ [⟨LogLevel.error, "- " ++ e⟩], none⟩
  else ⟨[], [], none⟩

/-! ### Channel selection (lines 108–116) -/

/-- The first four comma-separated fields of a manifest row: the channel
image paths `r, y, b, g` (fields `curr_set_arr[0]` … `curr_set_arr[3]`). -/
structure ManifestRow where
  rPath : String
  yPath : String
  bPath : String
  gPath : String

/-- Lines 108–116: `cell_data` is built by appending `[imread(path.strip())]`
for each of the four channel letters contained in the configured
`model_channels` string, in `r, y, b, g` order.  `imread` is the abstract
image reader; only the paths it is applied to are read. -/
def cell_data {α : Type} (model_channels : String) (imread : String → α)
    (row : ManifestRow) : List (List α) :=
  (if pyInStr 'r' model_channels then [[imread (pyStrip row.rPath)]] else []) ++
  (if pyInStr 'y' model_channels then [[imread (pyStrip row.yPath)]] else []) ++
  (if pyInStr 'b' model_channels then [[imread (pyStrip row.bPath)]] else []) ++
  (if pyInStr 'g' model_channels then [[imread (pyStrip row.gPath)]] else [])

/-! ### Model provisioning (lines 53–77) -/

/-- An HTTP response as used by `requests.get`: status code and body. -/
structure HttpResponse where
  status_code : ℕ
  content : List ℕ

/-- Lines 62–68 (and identically 70–76) for one artifact: on status 200 the
local file at `path` is overwritten with the body and an info line is
logged; on any other status nothing is written and a warning naming the
artifact is logged.  The file system is a map from paths to contents. -/
def downloadArtifact (name : String) (resp : HttpResponse)
    (fs : String → Option (List ℕ)) (path : String) :
    (String → Option (List ℕ)) × List LogLine :=
  if resp.status_code = 200 then
    (fun p => if p = path then some resp.content else fs p,
      [⟨LogLevel.info, "  - " ++ name ++ " updated."⟩])
  else
    (fs, [⟨LogLevel.warning, "  - " ++ name ++ " url not found."⟩])

/-- Lines 54–77: the provisioning step.  `cexists` / `eexists` model
`os.path.isfile` on the classifier / encoder paths; `respOf` models the
network, mapping a URL to its response.  Returns the updated file system,
the log lines, and the list of URLs requested over the network. -/
def provisionModels (update_model cexists eexists : Bool)
    (curl eurl : String) (respOf : String → HttpResponse)
    (fs : String → Option (List ℕ)) (cpath epath : String) :
    (String → Option (List ℕ)) × List LogLine × List String :=
  if !cexists || !eexists || update_model then
    let r1 := downloadArtifact "classifier.pth" (respOf curl) fs cpath
    let r2 := downloadArtifact "encoder.pth" (respOf eurl) r1.1 epath
    (r2.1, ⟨LogLevel.info, "- Downloading models..."⟩ :: (r1.2 ++ r2.2),
      [curl, eurl])
  else (fs, [], [])

/-! ### Configuration merging (lines 22–44) -/

/-- A configuration value: the source's data options are strings and
booleans. -/
inductive CfgVal where
  | s : String → CfgVal
  | b : Bool → CfgVal
deriving DecidableEq

/-- A Python dict of options, as an insertion-ordered association list. -/
abbrev Dict := List (String × CfgVal)

/-- Python `d[k] = v`: replace in place if the key exists, else append. -/
def dictSet : Dict → String → CfgVal → Dict
  | [], k, v => [(k, v)]
  | (k', v') :: rest, k, v =>
    if k' = k then (k', v) :: rest else (k', v') :: dictSet rest k v

/-- Python `a | b` on dicts: a copy of `a` updated with every binding of
`b`, in `b`'s order; on key conflicts `b` wins. -/
def dictMerge (a b : Dict) : Dict := b.foldl (fun d kv => dictSet d kv.1 kv.2) a

/-- Lookup of the first binding of a key. -/
def dictLookup : Dict → String → Option CfgVal
  | [], _ => none
  | (k', v) :: rest, k => if k' = k then some v else dictLookup rest k

/-- Lines 25–28: the built-in defaults (the special `log` entry stores the
logger object, not a data option, and is not modelled). -/
def defaults : Dict :=
  [("model_channels", CfgVal.s "rybg"),
   ("model_type", CfgVal.s "mae_contrast_supcon_model"),
   ("update_model", CfgVal.b false),
   ("create_csv", CfgVal.b false)]

/-- Lines 22–44: the final settings mapping.  `hasArgs` models
`len(sys.argv) > 1`; `cliArgs` models `args.__dict__`; `fileCfg` models the
parsed `config.yaml`, `none` when the YAML file is empty (line 43 skips the
merge then). -/
def finalConfig (hasArgs : Bool) (cliArgs : Dict) (fileCfg : Option Dict) : Dict :=
  let c1 := defaults
  let c2 := if hasArgs then dictMerge c1 cliArgs else c1
  match fileCfg with
  | some cfg => dictMerge c2 cfg
  | none => c2

/-! ### argparse boolean flags (lines 35–36) -/

/-- Python `bool(s)` on a string: false exactly for the empty string. -/
def pyBoolOfStr (s : String) : Bool := s ≠ ""

/-- A flag declared `type=bool, default=False` (the `update_model` and
`create_csv` argparse declarations, lines 35–36): an omitted flag yields
the default `False`; a provided value string `v` yields `bool(v)`. -/
def parseBoolFlag : Option String → Bool
  | none => false
  | some v => pyBoolOfStr v

/-- First-wins choice on optional values, used to state lookup precedence. -/
def optOr (x y : Option CfgVal) : Option CfgVal :=
  match x with
  | some v => some v
  | none => y

/-! ### Concrete instances used by closed witnesses -/

/-- A concrete manifest line with six fields. -/
def c3Line : String := "a,b,c,d,out,name"

/-- A concrete stand-in for `inference.CLASS2NAME`. -/
def c3C2N : ℕ → String := fun _ => "nm"

/-- A concrete 31-entry probability vector. -/
def c3Probs : List ℚ := List.replicate 31 0

/-- A concrete 1536-entry embedding vector. -/
def c3Emb : List ℚ := List.replicate 1536 0

/-- A concrete inference oracle that always succeeds. -/
def c3RO : String → Except String (List ℚ × List ℚ) :=
  fun _ => Except.ok (c3Emb, c3Probs)

/-- A concrete inference oracle that always raises. -/
def c4RO : String → Except String (List ℚ × List ℚ) :=
  fun _ => Except.error "boom"

end SubCell

namespace SubCell

/-! ### Lemmas about `pyMax` and `indexOf` -/

theorem foldl_max_mem : ∀ (l : List ℚ) (a : ℚ), l.foldl max a ∈ a :: l
  | [], a => by simp
  | b :: l, a => by
    have ih := foldl_max_mem l (max a b)
    rcases List.mem_cons.1 ih with h | h
    · rcases max_choice a b with hm | hm <;> simp_all [List.foldl_cons]
    · simp [List.foldl_cons, List.mem_cons.2 (Or.inr (List.mem_cons.2 (Or.inr h)))]

theorem le_foldl_max : ∀ (l : List ℚ) (a x : ℚ), x ∈ a :: l → x ≤ l.foldl max a
  | [], a, x, h => by simp_all
  | b :: l, a, x, h => by
    rcases List.mem_cons.1 h with rfl | h
    · exact le_trans (le_max_left x b) (le_foldl_max l (max x b) _ (List.mem_cons_self _ _))
    rcases List.mem_cons.1 h with rfl | h
    · exact le_trans (le_max_right a x) (le_foldl_max l (max a x) _ (List.mem_cons_self _ _))
    · exact le_foldl_max l (max a b) x (List.mem_cons.2 (Or.inr h))

theorem ne_of_lt_indexOf : ∀ (l : List ℚ) (m : ℚ) (j : ℕ),
    j < l.indexOf m → l.getD j 0 ≠ m
  | [], m, j, h => by simp [List.indexOf] at h
  | b :: l, m, j, h => by
    by_cases hb : b = m
    · rw [List.indexOf_cons_eq l hb] at h; omega
    · rw [List.indexOf_cons_ne l hb] at h
      match j with
      | 0 => simpa using hb
      | j + 1 => exact ne_of_lt_indexOf l m j (Nat.lt_of_succ_lt_succ h)

/-- C1: for every nonempty probability vector, the computed top-1 class index
`max_location_class` is in range, the value there is a maximum of the vector,
and it is the first index attaining that maximum (so it is "the index of the
maximum value"); in particular, for the probability vector
`[0.1, 0.7, 0.2]` the top-1 index is `1`. -/
theorem C1_top1_is_argmax (l : List ℚ) (h : l ≠ []) :
    (∃ i, max_location_class l = some i ∧ i < l.length ∧
      (∀ j, j < l.length → l.getD j 0 ≤ l.getD i 0) ∧
      (∀ j, j < i → l.getD j 0 < l.getD i 0)) ∧
    max_location_class [(1 : ℚ)/10, 7/10, 2/10] = some 1 := by
  constructor
  · match l, h with
    | a :: rest, _ =>
      set m := rest.foldl max a with hm
      have hmem : m ∈ a :: rest := foldl_max_mem rest a
      have hub : ∀ x ∈ a :: rest, x ≤ m := fun x hx => le_foldl_max rest a x hx
      refine ⟨(a :: rest).indexOf m, ?_, ?_, ?_, ?_⟩
      · simp [max_location_class, pyMax, hm]
      · exact List.indexOf_lt_length.2 hmem
      · intro j hj
        have hidx : (a :: rest).getD ((a :: rest).indexOf m) 0 = m := by
          rw [List.getD_eq_getElem _ 0 (List.indexOf_lt_length.2 hmem)]
          exact List.getElem_indexOf _
        rw [hidx]
        exact hub _ (by rw [List.getD_eq_getElem _ 0 hj]; exact List.getElem_mem _)
      · intro j hj
        have hidx : (a :: rest).getD ((a :: rest).indexOf m) 0 = m := by
          rw [List.getD_eq_getElem _ 0 (List.indexOf_lt_length.2 hmem)]
          exact List.getElem_indexOf _
        have hjlen : j < (a :: rest).length :=
          lt_of_lt_of_le hj (le_of_lt (List.indexOf_lt_length.2 hmem))
        have hle : (a :: rest).getD j 0 ≤ m :=
          hub _ (by rw [List.getD_eq_getElem _ 0 hjlen]; exact List.getElem_mem _)
        have hne : (a :: rest).getD j 0 ≠ m := ne_of_lt_indexOf _ m j hj
        rw [hidx]
        exact lt_of_le_of_ne hle hne
  · norm_num [max_location_class, pyMax, List.foldl, max_def, List.indexOf,
      List.findIdx, List.findIdx.go, Bool.cond_eq_ite, beq_iff_eq]

/-- Closed witness for C1 at the spec's example vector `[0.1, 0.7, 0.2]`. -/
theorem C1_top1_is_argmax_witness :
    ([(1 : ℚ)/10, 7/10, 2/10] ≠ []) ∧
    ((∃ i, max_location_class [(1 : ℚ)/10, 7/10, 2/10] = some i ∧
        i < ([(1 : ℚ)/10, 7/10, 2/10] : List ℚ).length ∧
        (∀ j, j < ([(1 : ℚ)/10, 7/10, 2/10] : List ℚ).length →
          ([(1 : ℚ)/10, 7/10, 2/10] : List ℚ).getD j 0 ≤
            ([(1 : ℚ)/10, 7/10, 2/10] : List ℚ).getD i 0) ∧
        (∀ j, j < i → ([(1 : ℚ)/10, 7/10, 2/10] : List ℚ).getD j 0 <
            ([(1 : ℚ)/10, 7/10, 2/10] : List ℚ).getD i 0)) ∧
      max_location_class [(1 : ℚ)/10, 7/10, 2/10] = some 1) :=
  ⟨by simp, C1_top1_is_argmax [(1 : ℚ)/10, 7/10, 2/10] (by simp)⟩

end SubCell

namespace SubCell

instance (l : List ℚ) : IsTotal ℕ (probLE l) := ⟨fun _ _ => le_total _ _⟩

instance (l : List ℚ) : IsTrans ℕ (probLE l) := ⟨fun _ _ _ => le_trans⟩

/-- C2: for every probability vector of length ≥ 3, `max_3_location_classes`
(the last three entries of the stable ascending sort of all indices by
probability) has exactly three in-range indices, listed in ascending
probability order, every omitted position having probability at most that of
every kept position (so the kept ones are the three highest-valued
positions); in particular, for `[0.5, 0.1, 0.2, 0.4, 0.3]` the triple read in
descending-probability order is `[0, 3, 4]`. -/
theorem C2_top3_are_three_highest (l : List ℚ) (h3 : 3 ≤ l.length) :
    ((max_3_location_classes l).length = 3 ∧
      (∀ i ∈ max_3_location_classes l, i < l.length) ∧
      List.Sorted (probLE l) (max_3_location_classes l) ∧
      (∀ j, j < l.length → j ∉ max_3_location_classes l →
        ∀ i ∈ max_3_location_classes l, l.getD j 0 ≤ l.getD i 0)) ∧
    (max_3_location_classes [(5 : ℚ)/10, 1/10, 2/10, 4/10, 3/10]).reverse
      = [0, 3, 4] := by
  constructor
  · have hperm := List.perm_insertionSort (probLE l) (List.range l.length)
    have hlen : (List.insertionSort (probLE l) (List.range l.length)).length
        = l.length := by
      rw [hperm.length_eq, List.length_range]
    have hsorted : List.Sorted (probLE l)
        (List.insertionSort (probLE l) (List.range l.length)) :=
      List.sorted_insertionSort (probLE l) (List.range l.length)
    refine ⟨?_, ?_, ?_, ?_⟩
    · rw [max_3_location_classes, List.length_drop, hlen]; omega
    · intro i hi
      have : i ∈ List.insertionSort (probLE l) (List.range l.length) :=
        List.mem_of_mem_drop hi
      have := hperm.mem_iff.1 this
      exact List.mem_range.1 this
    · exact hsorted.sublist (List.drop_sublist _ _)
    · intro j hj hnot i hi
      have hjmem : j ∈ List.insertionSort (probLE l) (List.range l.length) :=
        hperm.mem_iff.2 (List.mem_range.2 hj)
      rw [← List.take_append_drop (l.length - 3)
        (List.insertionSort (probLE l) (List.range l.length))] at hjmem
      rcases List.mem_append.1 hjmem with hjtake | hjdrop
      · have hpw := hsorted
        rw [List.Sorted, ← List.take_append_drop (l.length - 3)
          (List.insertionSort (probLE l) (List.range l.length)),
          List.pairwise_append] at hpw
        exact hpw.2.2 j hjtake i hi
      · exact absurd hjdrop hnot
  · norm_num [max_3_location_classes, probLE, List.insertionSort,
      List.orderedInsert, List.range, List.range.loop]

/-- Closed witness for C2 at the spec's example vector
`[0.5, 0.1, 0.2, 0.4, 0.3]`. -/
theorem C2_top3_are_three_highest_witness :
    (3 ≤ ([(5 : ℚ)/10, 1/10, 2/10, 4/10, 3/10] : List ℚ).length) ∧
    (((max_3_location_classes [(5 : ℚ)/10, 1/10, 2/10, 4/10, 3/10]).length = 3 ∧
      (∀ i ∈ max_3_location_classes [(5 : ℚ)/10, 1/10, 2/10, 4/10, 3/10],
        i < ([(5 : ℚ)/10, 1/10, 2/10, 4/10, 3/10] : List ℚ).length) ∧
      List.Sorted (probLE [(5 : ℚ)/10, 1/10, 2/10, 4/10, 3/10])
        (max_3_location_classes [(5 : ℚ)/10, 1/10, 2/10, 4/10, 3/10]) ∧
      (∀ j, j < ([(5 : ℚ)/10, 1/10, 2/10, 4/10, 3/10] : List ℚ).length →
        j ∉ max_3_location_classes [(5 : ℚ)/10, 1/10, 2/10, 4/10, 3/10] →
        ∀ i ∈ max_3_location_classes [(5 : ℚ)/10, 1/10, 2/10, 4/10, 3/10],
          ([(5 : ℚ)/10, 1/10, 2/10, 4/10, 3/10] : List ℚ).getD j 0 ≤
            ([(5 : ℚ)/10, 1/10, 2/10, 4/10, 3/10] : List ℚ).getD i 0)) ∧
    (max_3_location_classes [(5 : ℚ)/10, 1/10, 2/10, 4/10, 3/10]).reverse
      = [0, 3, 4]) :=
  ⟨by simp, C2_top3_are_three_highest [(5 : ℚ)/10, 1/10, 2/10, 4/10, 3/10] (by simp)⟩

end SubCell

namespace SubCell

/-- C5: with configured channel set `"rb"`, `cell_data` reads exactly the
r-path and b-path fields (it is literally the two-element list of images
read from them), and its value is unchanged under arbitrary replacement of
the y-path and g-path fields, so the output does not depend on their
contents. -/
theorem C5_channel_selection {α : Type} (imread : String → α)
    (r y b g y' g' : String) :
    cell_data "rb" imread ⟨r, y, b, g⟩
      = [[imread (pyStrip r)], [imread (pyStrip b)]] ∧
    cell_data "rb" imread ⟨r, y, b, g⟩ = cell_data "rb" imread ⟨r, y', b, g'⟩ := by
  have hr : pyInStr 'r' "rb" = true := by decide
  have hy : pyInStr 'y' "rb" = false := by decide
  have hb : pyInStr 'b' "rb" = true := by decide
  have hg : pyInStr 'g' "rb" = false := by decide
  constructor <;> simp [cell_data, hr, hy, hb, hg]

/-- C6: a download attempt with a non-200 status leaves the whole local file
system unmodified and logs exactly one warning, whose text contains the
artifact name; a 200 response overwrites the local file at the target path
with the response body. -/
theorem C6_download_status (name : String) (resp resp200 : HttpResponse)
    (fs fs' : String → Option (List ℕ)) (path path' : String)
    (h : resp.status_code ≠ 200) (h200 : resp200.status_code = 200) :
    (downloadArtifact name resp fs path).1 = fs ∧
    (downloadArtifact name resp fs path).2
      = [⟨LogLevel.warning, "  - " ++ name ++ " url not found."⟩] ∧
    (∃ s : String, "  - " ++ name ++ " url not found."
      = s ++ name ++ " url not found.") ∧
    (downloadArtifact name resp200 fs' path').1 path' = some resp200.content := by
  refine ⟨?_, ?_, ⟨"  - ", rfl⟩, ?_⟩ <;> simp [downloadArtifact, h, h200]

/-- Closed witness for C6: a 404 for `classifier.pth` against an empty file
system, and a 200 response. -/
theorem C6_download_status_witness :
    ((⟨404, []⟩ : HttpResponse).status_code ≠ 200) ∧
    ((⟨200, [7]⟩ : HttpResponse).status_code = 200) ∧
    ((downloadArtifact "classifier.pth" ⟨404, []⟩ (fun _ => none) "models/c.pth").1
        = (fun _ : String => (none : Option (List ℕ))) ∧
      (downloadArtifact "classifier.pth" ⟨404, []⟩ (fun _ => none) "models/c.pth").2
        = [⟨LogLevel.warning, "  - " ++ "classifier.pth" ++ " url not found."⟩] ∧
      (∃ s : String, "  - " ++ "classifier.pth" ++ " url not found."
        = s ++ "classifier.pth" ++ " url not found.") ∧
      (downloadArtifact "classifier.pth" ⟨200, [7]⟩ (fun _ => none) "models/e.pth").1
          "models/e.pth" = some [7]) :=
  ⟨by decide, rfl,
    C6_download_status "classifier.pth" ⟨404, []⟩ ⟨200, [7]⟩ (fun _ => none)
      (fun _ => none) "models/c.pth" "models/e.pth" (by decide) rfl⟩

/-- C7: when `update_model` is false and both weight files already exist,
the provisioning step requests no URL at all (and changes neither the file
system nor the log). -/
theorem C7_no_requests_when_present (curl eurl : String)
    (respOf : String → HttpResponse) (fs : String → Option (List ℕ))
    (cpath epath : String) (upd cex eex : Bool)
    (hupd : upd = false) (hc : cex = true) (he : eex = true) :
    (provisionModels upd cex eex curl eurl respOf fs cpath epath).2.2 = [] ∧
    provisionModels upd cex eex curl eurl respOf fs cpath epath = (fs, [], []) := by
  subst hupd; subst hc; subst he
  exact ⟨rfl, rfl⟩

/-- Closed witness for C7 at a concrete URL table and file system. -/
theorem C7_no_requests_when_present_witness :
    (false = false) ∧ (true = true) ∧
    ((provisionModels false true true "cu" "eu" (fun _ => ⟨200, []⟩)
        (fun _ => some []) "cp" "ep").2.2 = [] ∧
      provisionModels false true true "cu" "eu" (fun _ => ⟨200, []⟩)
        (fun _ => some []) "cp" "ep" = ((fun _ => some []), [], [])) :=
  ⟨rfl, rfl,
    C7_no_requests_when_present "cu" "eu" (fun _ => ⟨200, []⟩) (fun _ => some [])
      "cp" "ep" false true true rfl rfl rfl⟩

/-- C9 counterexample: the claim says only omitting the flag yields false,
but passing the explicit value `""` (a provided, non-omitted argument, as in
`-u ""`) also yields false. -/
theorem C9_counterexample :
    parseBoolFlag (some "") = false ∧ some "" ≠ (none : Option String) := by
  exact ⟨rfl, by simp⟩

/-- C9 (amended): any non-empty value string — including `"False"` — makes
the flag true; omitting the flag, or passing the empty string, yields
false. -/
theorem C9_bool_flag (s : String) (h : s ≠ "") :
    parseBoolFlag (some s) = true ∧ parseBoolFlag (some "False") = true ∧
    parseBoolFlag none = false ∧ parseBoolFlag (some "") = false := by
  refine ⟨?_, by decide, rfl, rfl⟩
  simp [parseBoolFlag, pyBoolOfStr, h]

/-- Closed witness for C9 at the value string `"False"`. -/
theorem C9_bool_flag_witness :
    ("False" ≠ "") ∧
    (parseBoolFlag (some "False") = true ∧ parseBoolFlag (some "False") = true ∧
      parseBoolFlag none = false ∧ parseBoolFlag (some "") = false) :=
  ⟨by decide, C9_bool_flag "False" (by decide)⟩

/-- C10: when the manifest `./path_list.csv` does not exist, the run
completes with no error logged, zero rows processed, and no `result.csv`
written — even when CSV mode is enabled. -/
theorem C10_missing_manifest (c2n : ℕ → String) (create_csv : Bool)
    (ro : String → Except String (List ℚ × List ℚ)) (lines : List String) :
    mainRun c2n create_csv ro false lines
      = ⟨[], [], none⟩ ∧
    (mainRun c2n true ro false lines).resultCsv = none ∧
    ∀ lg ∈ (mainRun c2n create_csv ro false lines).logs,
      lg.level ≠ LogLevel.error := by
  refine ⟨rfl, rfl, ?_⟩
  intro lg hlg
  simp [mainRun] at hlg

end SubCell

namespace SubCell

theorem dictLookup_dictSet (d : Dict) (k k' : String) (v : CfgVal) :
    dictLookup (dictSet d k v) k' = if k = k' then some v else dictLookup d k' := by
  induction d with
  | nil => simp [dictSet, dictLookup]
  | cons kv rest ih =>
    obtain ⟨k0, v0⟩ := kv
    by_cases h0 : k0 = k
    · subst h0
      by_cases hkk : k0 = k' <;> simp [dictSet, dictLookup, hkk]
    · have hset : dictSet ((k0, v0) :: rest) k v = (k0, v0) :: dictSet rest k v := by
        simp [dictSet, h0]
      rw [hset]
      by_cases hkk : k0 = k'
      · subst hkk
        simp [dictLookup, if_neg (fun hh : k = k0 => h0 hh.symm)]
      · simp [dictLookup, hkk, ih]

theorem dictLookup_eq_none_of_not_mem (d : Dict) (k : String)
    (h : k ∉ d.map Prod.fst) : dictLookup d k = none := by
  induction d with
  | nil => rfl
  | cons kv rest ih =>
    obtain ⟨k0, v0⟩ := kv
    simp only [List.map_cons, List.mem_cons] at h
    push_neg at h
    simp [dictLookup, fun hh : k0 = k => h.1 hh.symm, ih h.2, Ne.symm h.1]

theorem dictLookup_dictMerge (a b : Dict) (hb : (b.map Prod.fst).Nodup)
    (k : String) :
    dictLookup (dictMerge a b) k = optOr (dictLookup b k) (dictLookup a k) := by
  induction b generalizing a with
  | nil => simp [dictMerge, dictLookup, optOr]
  | cons kv rest ih =>
    obtain ⟨k0, v0⟩ := kv
    simp only [List.map_cons, List.nodup_cons] at hb
    have hmerge : dictMerge a ((k0, v0) :: rest) = dictMerge (dictSet a k0 v0) rest := by
      simp [dictMerge]
    rw [hmerge, ih _ hb.2]
    by_cases hk : k0 = k
    · subst hk
      rw [dictLookup_eq_none_of_not_mem rest k0 hb.1]
      simp [optOr, dictLookup, dictLookup_dictSet]
    · cases hrest : dictLookup rest k <;>
        simp [optOr, dictLookup, dictLookup_dictSet, hk, hrest]

/-- C8: the final settings mapping resolves every key with precedence
file config > CLI args (only when CLI arguments are present) > built-in
defaults: the YAML binding wins when present, else the CLI binding (if
arguments were parsed), else the default.  The dict hypotheses say each
source is a genuine Python dict (no duplicate keys). -/
theorem C8_config_precedence (hasArgs : Bool) (cliArgs : Dict)
    (fileCfg : Option Dict) (hcli : (cliArgs.map Prod.fst).Nodup)
    (hfile : ∀ cfg, fileCfg = some cfg → (cfg.map Prod.fst).Nodup) (k : String) :
    dictLookup (finalConfig hasArgs cliArgs fileCfg) k =
      optOr (match fileCfg with
             | some cfg => dictLookup cfg k
             | none => none)
        (if hasArgs then optOr (dictLookup cliArgs k) (dictLookup defaults k)
          else dictLookup defaults k) := by
  cases fileCfg with
  | none =>
    cases hasArgs <;>
      simp [finalConfig, optOr, dictLookup_dictMerge _ _ hcli]
  | some cfg =>
    have hc := hfile cfg rfl
    cases hasArgs <;>
      simp [finalConfig, dictLookup_dictMerge _ _ hc, dictLookup_dictMerge _ _ hcli]

/-- Closed witness for C8: CLI arguments present, a CLI dict overriding two
keys, and a YAML dict overriding one of them; at key `model_channels` the
YAML value wins. -/
theorem C8_config_precedence_witness :
    (([("model_channels", CfgVal.s "bg"), ("update_model", CfgVal.b true)].map
        (Prod.fst (α := String) (β := CfgVal))).Nodup) ∧
    (dictLookup (finalConfig true
        [("model_channels", CfgVal.s "bg"), ("update_model", CfgVal.b true)]
        (some [("model_channels", CfgVal.s "ybg")])) "model_channels" =
      optOr (match some [("model_channels", CfgVal.s "ybg")] with
             | some cfg => dictLookup cfg "model_channels"
             | none => none)
        (if true then
            optOr (dictLookup
                [("model_channels", CfgVal.s "bg"), ("update_model", CfgVal.b true)]
                "model_channels")
              (dictLookup defaults "model_channels")
          else dictLookup defaults "model_channels")) :=
  ⟨by decide,
    C8_config_precedence true
      [("model_channels", CfgVal.s "bg"), ("update_model", CfgVal.b true)]
      (some [("model_channels", CfgVal.s "ybg")]) (by decide)
      (fun cfg h => by
        rw [← Option.some.inj h]
        decide)
      "model_channels"⟩

end SubCell

namespace SubCell

/-- Every log line emitted by a successfully processed (or skipped) manifest
line is at info level: warnings/errors never come from inside the loop body. -/
theorem processLine_ok_logs (c2n : ℕ → String) (cc : Bool)
    (ro : String → Except String (List ℚ × List ℚ)) (line : String)
    (r : Option (List Cell)) (lg : List LogLine)
    (h : processLine c2n cc ro line = Except.ok (r, lg)) :
    ∀ x ∈ lg, x.level = LogLevel.info := by
  simp only [processLine] at h
  repeat' split at h
  all_goals
    first
    | (simp_all
       done)
    | (injection h with h'
       injection h' with hr hl
       subst hl
       simp)

/-- Processing a prefix of lines that all succeed appends some rows and some
info-level log lines, independently of what comes after the prefix. -/
theorem runLines_ok_extend (c2n : ℕ → String) (cc : Bool)
    (ro : String → Except String (List ℚ × List ℚ)) :
    ∀ (pre : List String),
      (∀ l ∈ pre, ∃ out, processLine c2n cc ro l = Except.ok out) →
      ∀ df logs, ∃ rows lgs,
        (∀ x ∈ lgs, x.level = LogLevel.info) ∧
        (∀ rest, runLines c2n cc ro (pre ++ rest) df logs
          = runLines c2n cc ro rest (df ++ rows) (logs ++ lgs))
  | [], _, df, logs => ⟨[], [], by simp, fun rest => by simp⟩
  | l :: pre', h, df, logs => by
    obtain ⟨⟨r, lg⟩, hout⟩ := h l (List.mem_cons_self _ _)
    have hrest : ∀ l' ∈ pre', ∃ out, processLine c2n cc ro l' = Except.ok out :=
      fun l' hl' => h l' (List.mem_cons_of_mem _ hl')
    have hlg := processLine_ok_logs c2n cc ro l r lg hout
    cases r with
    | none =>
      obtain ⟨rows', lgs', hinfo, hstep⟩ :=
        runLines_ok_extend c2n cc ro pre' hrest df (logs ++ lg)
      refine ⟨rows', lg ++ lgs', ?_, ?_⟩
      · intro x hx
        rcases List.mem_append.1 hx with hx | hx
        · exact hlg x hx
        · exact hinfo x hx
      · intro rest
        have hone : runLines c2n cc ro ((l :: pre') ++ rest) df logs
            = runLines c2n cc ro (pre' ++ rest) df (logs ++ lg) := by
          simp [runLines, hout]
        rw [hone, hstep rest, List.append_assoc]
    | some row =>
      obtain ⟨rows', lgs', hinfo, hstep⟩ :=
        runLines_ok_extend c2n cc ro pre' hrest (df ++ [row]) (logs ++ lg)
      refine ⟨row :: rows', lg ++ lgs', ?_, ?_⟩
      · intro x hx
        rcases List.mem_append.1 hx with hx | hx
        · exact hlg x hx
        · exact hinfo x hx
      · intro rest
        have hone : runLines c2n cc ro ((l :: pre') ++ rest) df logs
            = runLines c2n cc ro (pre' ++ rest) (df ++ [row]) (logs ++ lg) := by
          simp [runLines, hout]
        rw [hone, hstep rest, List.append_assoc, List.append_assoc]
        rfl

/-- C3: with CSV mode on, a processed manifest line whose inference succeeds
with a 31-entry probability vector and 1536-entry embedding appends exactly
one row, namely `new_row`, which lists in order the stripped base
identifier, the top-1 class name, the top-1 class index, the comma-joined
top-3 names (the sorted triple read richest first), the comma-joined top-3
indices, all 31 probabilities and all 1536 embedding values, and whose
width equals the fixed `final_columns` width. -/
theorem C3_csv_row_schema (c2n : ℕ → String)
    (ro : String → Except String (List ℚ × List ℚ)) (line : String)
    (emb probs : List ℚ) (top : ℕ) (t3n : String)
    (hskip : pyStrip line ≠ "" ∧ pyStartsWith line '#' = false)
    (h6 : 6 ≤ (pySplit line).length)
    (hro : ro line = Except.ok (emb, probs))
    (h31 : probs.length = 31) (h1536 : emb.length = 1536)
    (htop : max_location_class probs = some top)
    (hnames : max_3_location_names c2n probs = some t3n) :
    processLine c2n true ro line = Except.ok
      (some (new_row (pyStrip ((pySplit line).getD 5 "")) (c2n top) top t3n
        (max_3_location_classes probs) probs emb),
       [⟨LogLevel.info, "- Saved results for " ++ pyStrip ((pySplit line).getD 5 "")
          ++ ", locations predicted [" ++ t3n ++ "]"⟩]) ∧
    new_row (pyStrip ((pySplit line).getD 5 "")) (c2n top) top t3n
        (max_3_location_classes probs) probs emb
      = [Cell.str (pyStrip ((pySplit line).getD 5 "")), Cell.str (c2n top),
          Cell.nat top, Cell.str t3n,
          Cell.str (pyJoin "," ((max_3_location_classes probs).map toString))]
        ++ probs.map Cell.rat ++ emb.map Cell.rat ∧
    (new_row (pyStrip ((pySplit line).getD 5 "")) (c2n top) top t3n
        (max_3_location_classes probs) probs emb).length = final_columns.length ∧
    (∀ rest df logs, runLines c2n true ro (line :: rest) df logs
      = runLines c2n true ro rest
          (df ++ [new_row (pyStrip ((pySplit line).getD 5 "")) (c2n top) top t3n
            (max_3_location_classes probs) probs emb])
          (logs ++ [⟨LogLevel.info,
            "- Saved results for " ++ pyStrip ((pySplit line).getD 5 "")
              ++ ", locations predicted [" ++ t3n ++ "]"⟩])) := by
  have hproc : processLine c2n true ro line = Except.ok
      (some (new_row (pyStrip ((pySplit line).getD 5 "")) (c2n top) top t3n
        (max_3_location_classes probs) probs emb),
       [⟨LogLevel.info, "- Saved results for " ++ pyStrip ((pySplit line).getD 5 "")
          ++ ", locations predicted [" ++ t3n ++ "]"⟩]) := by
    simp [processLine, hskip.1, hskip.2, h6, hro, htop, hnames]
  refine ⟨hproc, rfl, ?_, ?_⟩
  · simp [new_row, final_columns, prob_columns, feat_columns, h31, h1536]
  · intro rest df logs
    simp [runLines, hproc]

/-- C4: if every line before `bad` succeeds and processing `bad` raises an
exception with message `e`, then the whole run keeps only the rows of the
earlier lines (no later line is processed or appended), logs exactly one
error line, whose text contains `e`, and writes no `result.csv` — whatever
lines follow `bad`. -/
theorem C4_first_error_aborts (c2n : ℕ → String) (cc : Bool)
    (ro : String → Except String (List ℚ × List ℚ))
    (pre : List String) (bad : String) (e : String)
    (hpre : ∀ l ∈ pre, ∃ out, processLine c2n cc ro l = Except.ok out)
    (hbad : processLine c2n cc ro bad = Except.error e) :
    ∃ (rows : List (List Cell)) (lgs : List LogLine),
      runLines c2n cc ro pre [] [] = (rows, lgs, none) ∧
      (∀ x ∈ lgs, x.level = LogLevel.info) ∧
      (∀ post, mainRun c2n cc ro true (pre ++ bad :: post)
        = ⟨rows, lgs ++ [⟨LogLevel.error, "- " ++ e⟩], none⟩) ∧
      (List.filter (fun x => x.level == LogLevel.error)
          (lgs ++ [LogLine.mk LogLevel.error ("- " ++ e)]))
        = [LogLine.mk LogLevel.error ("- " ++ e)] ∧
      (∃ s : String, "- " ++ e = s ++ e) := by
  obtain ⟨rows, lgs, hinfo, hstep⟩ := runLines_ok_extend c2n cc ro pre hpre [] []
  refine ⟨rows, lgs, ?_, hinfo, ?_, ?_, ?_⟩
  · have h0 := hstep []
    simp only [List.append_nil, List.nil_append] at h0
    rw [h0]
    simp [runLines]
  · intro post
    have h1 := hstep (bad :: post)
    simp only [List.nil_append] at h1
    simp [mainRun, h1, runLines, hbad]
  · rw [List.filter_append]
    have h2 : lgs.filter (fun x => x.level == LogLevel.error) = [] := by
      rw [List.filter_eq_nil_iff]
      intro a ha
      simp [hinfo a ha]
    rw [h2]
    simp
  · exact ⟨"- ", rfl⟩

end SubCell

namespace SubCell

set_option maxRecDepth 100000 in
/-- Closed witness for C3: a six-field manifest line, a 31-entry probability
vector and a 1536-entry embedding. -/
theorem C3_csv_row_schema_witness :
    (pyStrip c3Line ≠ "" ∧ pyStartsWith c3Line '#' = false) ∧
    (6 ≤ (pySplit c3Line).length) ∧
    (c3RO c3Line = Except.ok (c3Emb, c3Probs)) ∧
    (c3Probs.length = 31) ∧ (c3Emb.length = 1536) ∧
    (max_location_class c3Probs = some 0) ∧
    (max_3_location_names c3C2N c3Probs = some "nm,nm,nm") ∧
    (processLine c3C2N true c3RO c3Line = Except.ok
      (some (new_row (pyStrip ((pySplit c3Line).getD 5 "")) (c3C2N 0) 0 "nm,nm,nm"
        (max_3_location_classes c3Probs) c3Probs c3Emb),
       [⟨LogLevel.info, "- Saved results for " ++ pyStrip ((pySplit c3Line).getD 5 "")
          ++ ", locations predicted [" ++ "nm,nm,nm" ++ "]"⟩]) ∧
    new_row (pyStrip ((pySplit c3Line).getD 5 "")) (c3C2N 0) 0 "nm,nm,nm"
        (max_3_location_classes c3Probs) c3Probs c3Emb
      = [Cell.str (pyStrip ((pySplit c3Line).getD 5 "")), Cell.str (c3C2N 0),
          Cell.nat 0, Cell.str "nm,nm,nm",
          Cell.str (pyJoin "," ((max_3_location_classes c3Probs).map toString))]
        ++ c3Probs.map Cell.rat ++ c3Emb.map Cell.rat ∧
    (new_row (pyStrip ((pySplit c3Line).getD 5 "")) (c3C2N 0) 0 "nm,nm,nm"
        (max_3_location_classes c3Probs) c3Probs c3Emb).length = final_columns.length ∧
    (∀ rest df logs, runLines c3C2N true c3RO (c3Line :: rest) df logs
      = runLines c3C2N true c3RO rest
          (df ++ [new_row (pyStrip ((pySplit c3Line).getD 5 "")) (c3C2N 0) 0 "nm,nm,nm"
            (max_3_location_classes c3Probs) c3Probs c3Emb])
          (logs ++ [⟨LogLevel.info,
            "- Saved results for " ++ pyStrip ((pySplit c3Line).getD 5 "")
              ++ ", locations predicted [" ++ "nm,nm,nm" ++ "]"⟩]))) :=
  ⟨by decide, by decide, rfl, by simp [c3Probs], by simp [c3Emb], by decide, by decide,
    C3_csv_row_schema c3C2N c3RO c3Line c3Emb c3Probs 0 "nm,nm,nm"
      (by decide) (by decide) rfl (by simp [c3Probs]) (by simp [c3Emb])
      (by decide) (by decide)⟩

/-- Closed witness for C4: one comment line that is skipped, then a line on
which inference raises `"boom"`. -/
theorem C4_first_error_aborts_witness :
    (∀ l ∈ ["# skip"], ∃ out, processLine c3C2N true c4RO l = Except.ok out) ∧
    (processLine c3C2N true c4RO c3Line = Except.error "boom") ∧
    (∃ (rows : List (List Cell)) (lgs : List LogLine),
      runLines c3C2N true c4RO ["# skip"] [] [] = (rows, lgs, none) ∧
      (∀ x ∈ lgs, x.level = LogLevel.info) ∧
      (∀ post, mainRun c3C2N true c4RO true (["# skip"] ++ c3Line :: post)
        = ⟨rows, lgs ++ [⟨LogLevel.error, "- " ++ "boom"⟩], none⟩) ∧
      (List.filter (fun x => x.level == LogLevel.error)
          (lgs ++ [LogLine.mk LogLevel.error ("- " ++ "boom")]))
        = [LogLine.mk LogLevel.error ("- " ++ "boom")] ∧
      (∃ s : String, "- " ++ "boom" = s ++ "boom")) :=
  ⟨fun l hl => by
      simp only [List.mem_singleton] at hl
      subst hl
      exact ⟨(none, []), rfl⟩,
    rfl,
    C4_first_error_aborts c3C2N true c4RO ["# skip"] c3Line "boom"
      (fun l hl => by
        simp only [List.mem_singleton] at hl
        subst hl
        exact ⟨(none, []), rfl⟩)
      rfl⟩

end SubCell
